import Mathlib

/-!
Verification of the `Time` / `Time64` ClickHouse column implementations
(`lib/column/time.go`, `lib/column/time64.go`) against their specification.

The Go code is shallowly embedded: Go strings are `List Char`, Go `time.Time`
values are `GoTime` (seconds since the Unix epoch plus a normalized
nanosecond field), machine integers are `Int` (the source never overflows
`int64` on the paths modelled here), and every fallible operation returns
`Option` or `Except`.  Go stdlib functions used by the source
(`time.Date`, `time.Parse` for the fixed layout list, `time.Time.Hour` and
friends, `strconv.ParseInt`, `strings.HasPrefix` and friends) are modelled
from their documented semantics.  The external row store
(`proto.ColTime` / `proto.ColTime64`) is, per the specification, a thin
pass-through adapter and is modelled as a `List GoTime`; the external
timezone registry is a parameter `Str → Option GoLoc`.

Go integer division truncates toward zero, which is `Int.tdiv` / `Int.tmod`;
the Euclidean `/` and `%` of Lean's `Int` are used only inside the models of
Go runtime normalization (where Go itself computes via non-negative
absolute times, i.e. Euclidean arithmetic).
-/

namespace CHTime

/-- Go strings are modelled as lists of characters. -/
abbrev Str := List Char

/-- Model of Go `time.Time`: seconds since the Unix epoch together with a
nanosecond field normalized into `[0, 10^9)` by construction. -/
structure GoTime where
  sec : Int
  nsec : Int
deriving DecidableEq, Repr

/-- Model of a fixed-offset `*time.Location` (offset east of UTC in
seconds); the registry of named zones is kept abstract. -/
structure GoLoc where
  offset : Int
deriving DecidableEq, Repr

/-- Timezone registry interface: Go `timezone.Load(name)`, `none` meaning
the registry returns an error for that name. -/
abbrev TzRegistry := Str → Option GoLoc

/-- Model of Go `sql.NullTime`. -/
structure GoNullTime where
  valid : Bool
  time : GoTime
deriving DecidableEq, Repr

/-- Model of the Go zero value `time.Time{}`: January 1, year 1, 00:00:00
UTC, which is -62135596800 seconds before the Unix epoch (an exact multiple
of 86400). -/
def goTimeZero : GoTime := ⟨-62135596800, 0⟩

/-- Model of Go `time.Date(1970, 1, 1, h, m, s, ns, loc)` where `off` is
the fixed offset of `loc` in seconds.  Go normalizes the nanosecond field
into `[0, 10^9)` borrowing from the seconds (Euclidean division), computes
the wall-clock seconds and subtracts the zone offset to obtain the
absolute instant. -/
def goDateIn (off h m s ns : Int) : GoTime :=
  ⟨h * 3600 + m * 60 + s + ns / 1000000000 - off, ns % 1000000000⟩

/-- Seconds into the day of an instant as displayed in a zone with offset
`off`; Go computes clock components from the non-negative absolute time,
i.e. by Euclidean arithmetic. -/
def GoTime.daySec (t : GoTime) (off : Int) : Int := (t.sec + off) % 86400

/-- Model of Go `t.In(loc).Hour()`. -/
def GoTime.hourIn (t : GoTime) (off : Int) : Int := t.daySec off / 3600

/-- Model of Go `t.In(loc).Minute()`. -/
def GoTime.minuteIn (t : GoTime) (off : Int) : Int := t.daySec off % 3600 / 60

/-- Model of Go `t.In(loc).Second()`. -/
def GoTime.secondIn (t : GoTime) (off : Int) : Int := t.daySec off % 60

/-! Arithmetic bridge lemmas between Go truncating division and the
Euclidean operators. -/

theorem neg_tmod_eq (a b : Int) : (-a).tmod b = -(a.tmod b) := by
  rw [Int.tmod_def, Int.tmod_def, Int.neg_tdiv]
  ring

theorem hms_recompose_nonneg (t : Int) (h : 0 ≤ t) :
    t.tdiv 3600 * 3600 + (t.tmod 3600).tdiv 60 * 60 + t.tmod 60 = t := by
  rw [Int.tdiv_eq_ediv h (by norm_num), Int.tmod_eq_emod h (by norm_num),
    Int.tmod_eq_emod h (by norm_num),
    Int.tdiv_eq_ediv (Int.emod_nonneg t (by norm_num)) (by norm_num)]
  omega

/-- Decomposing an integer into hour/minute/second components with Go's
truncating division and recomposing them is the identity, for every sign. -/
theorem hms_recompose (t : Int) :
    t.tdiv 3600 * 3600 + (t.tmod 3600).tdiv 60 * 60 + t.tmod 60 = t := by
  rcases le_or_lt 0 t with h | h
  · exact hms_recompose_nonneg t h
  · have key := hms_recompose_nonneg (-t) (by omega)
    have e1 : t.tdiv 3600 = -((-t).tdiv 3600) := by rw [← Int.neg_tdiv]; simp
    have e2 : (t.tmod 3600).tdiv 60 = -(((-t).tmod 3600).tdiv 60) := by
      have em : t.tmod 3600 = -((-t).tmod 3600) := by rw [← neg_tmod_eq]; simp
      rw [em, Int.neg_tdiv]
    have e3 : t.tmod 60 = -((-t).tmod 60) := by rw [← neg_tmod_eq]; simp
    rw [e1, e2, e3]
    omega

/-! Go string helpers used by the type-descriptor parsers, following
`strings.HasPrefix` / `TrimPrefix` / `TrimSuffix` / `Split` / `Contains`. -/

/-- Model of Go `strings.TrimPrefix`. -/
def trimPre (p s : Str) : Str := if p.isPrefixOf s then s.drop p.length else s

/-- Model of Go `strings.TrimSuffix`. -/
def trimSuf (q s : Str) : Str :=
  if q.isSuffixOf s then s.take (s.length - q.length) else s

/-- Model of Go `strings.Split(s, ",")`. -/
def splitComma : Str → List Str
  | [] => [[]]
  | c :: rest =>
    if c = ',' then [] :: splitComma rest
    else
      match splitComma rest with
      | h :: t => (c :: h) :: t
      | [] => [[c]]

/-- Model of Go `strings.Contains(s, ",")`. -/
def containsComma (s : Str) : Bool := s.any (fun c => c = ',')

/-! Model of Go `strconv.ParseInt(s, 10, bitSize)`. -/

def isDigitCh (c : Char) : Bool := '0' ≤ c && c ≤ '9'

def digitVal (c : Char) : Nat := c.toNat - '0'.toNat

/-- Value of a non-empty all-digit string, `none` otherwise. -/
def parseDigits (s : Str) : Option Nat :=
  if s = [] then none
  else if s.all isDigitCh then some (s.foldl (fun a c => 10 * a + digitVal c) 0)
  else none

/-- Model of Go `strconv.ParseInt(s, 10, bitSize)`: optional sign, decimal
digits, range-checked against the signed `bitSize`-bit range. -/
def goParseInt (s : Str) (bitSize : Nat) : Option Int :=
  let signDigits : Bool × Str :=
    match s with
    | '+' :: rest => (false, rest)
    | '-' :: rest => (true, rest)
    | _ => (false, s)
  match parseDigits signDigits.2 with
  | none => none
  | some n =>
    let v : Int := if signDigits.1 then -(n : Int) else (n : Int)
    if -(2 ^ (bitSize - 1)) ≤ v ∧ v < 2 ^ (bitSize - 1) then some v else none

/-! Model of Go `time.Parse` for the fixed layouts listed in the source
(`Time.parseTime` and `Time64.parseTime`), following the parsing rules of
Go's `time/format.go`: `getnum` accepts one or two digits unless the layout
digit is zero-padded; hours are range-checked below 24 (12 for the 12-hour
layouts), minutes and seconds below 60; a fractional second is consumed
after the seconds even when the layout has no fractional chunk; `.999`
fractions are optional and take any number of digits; `PM`/`AM` must match
exactly; a `-07:00` zone chunk accepts `Z` or a sign, two digits, a colon
and two digits; trailing input is an error. -/

structure Clock where
  hour : Nat
  minute : Nat
  second : Nat
  nsec : Nat
deriving DecidableEq, Repr

/-- Model of Go `getnum`: one or two digits if not `fixed`, exactly two
digits otherwise. -/
def getnum (fixed : Bool) : Str → Option (Nat × Str)
  | c1 :: c2 :: rest =>
    if isDigitCh c1 then
      if isDigitCh c2 then some (10 * digitVal c1 + digitVal c2, rest)
      else if fixed then none
      else some (digitVal c1, c2 :: rest)
    else none
  | [c1] => if isDigitCh c1 && !fixed then some (digitVal c1, []) else none
  | [] => none

def pLit (c : Char) : Str → Option Str
  | d :: rest => if d = c then some rest else none
  | [] => none

/-- Guard of Go's optional-fraction handling: a comma or period followed by
a digit. -/
def fracGuard : Str → Bool
  | c :: c2 :: _ => (c = '.' || c = ',') && isDigitCh c2
  | _ => false

/-- Nanoseconds denoted by a digit run after the decimal point; Go's
`parseNanoseconds` uses at most the first nine digits, scaled up to nine
places. -/
def nsOfDigits (ds : Str) : Nat :=
  let use := ds.take 9
  use.foldl (fun a c => 10 * a + digitVal c) 0 * 10 ^ (9 - use.length)

/-- Optional fractional second: when the guard holds, the point and every
following digit are consumed; otherwise nothing is. -/
def pFracOpt (s : Str) : Nat × Str :=
  if fracGuard s then
    match s with
    | _ :: rest => (nsOfDigits (rest.takeWhile isDigitCh), rest.dropWhile isDigitCh)
    | [] => (0, s)
  else (0, s)

/-- Model of Go's `PM`/`AM` chunk; `true` means PM. -/
def pMeridiem : Str → Option (Bool × Str)
  | 'P' :: 'M' :: rest => some (true, rest)
  | 'A' :: 'M' :: rest => some (false, rest)
  | _ => none

/-- Model of Go's `-07:00` zone chunk: `Z`, or a sign, two digits, a colon
and two digits; the parsed offset does not change the clock fields because
`time.Parse` constructs the instant in the parsed zone. -/
def pOffsetColon : Str → Option Str
  | 'Z' :: rest => some rest
  | sign :: h1 :: h2 :: ':' :: m1 :: m2 :: rest =>
    if (sign = '+' || sign = '-') && isDigitCh h1 && isDigitCh h2
        && isDigitCh m1 && isDigitCh m2 then some rest
    else none
  | _ => none

/-- Hour adjustment Go applies after parsing a meridiem. -/
def applyMeridiem (pm : Bool) (h : Nat) : Nat :=
  if pm then (if h < 12 then h + 12 else h) else (if h = 12 then 0 else h)

/-- The `HH:MM:SS` part shared by most layouts.  `fracNext` tells whether
the layout continues with a fractional chunk; when it does not, Go still
consumes a fractional second present in the input (the special case in its
seconds parsing). -/
def pHMS (fracNext : Bool) (s : Str) : Option (Nat × Nat × Nat × Nat × Str) := do
  let (h, s1) ← getnum false s
  if 24 ≤ h then none else
  let s2 ← pLit ':' s1
  let (m, s3) ← getnum true s2
  if 60 ≤ m then none else
  let s4 ← pLit ':' s3
  let (sec, s5) ← getnum true s4
  if 60 ≤ sec then none else
  if fracNext then some (h, m, sec, 0, s5)
  else
    let (ns, s6) := pFracOpt s5
    some (h, m, sec, ns, s6)

/-- The `H12:MM:SS` part of the 12-hour layout (hour at most 12; the next
layout chunk is a literal, so an input fraction is consumed). -/
def pH12MS (s : Str) : Option (Nat × Nat × Nat × Nat × Str) := do
  let (h, s1) ← getnum false s
  if 12 < h then none else
  let s2 ← pLit ':' s1
  let (m, s3) ← getnum true s2
  if 60 ≤ m then none else
  let s4 ← pLit ':' s3
  let (sec, s5) ← getnum true s4
  if 60 ≤ sec then none else
  let (ns, s6) := pFracOpt s5
  some (h, m, sec, ns, s6)

/-- The layouts appearing in `Time.parseTime` and `Time64.parseTime`. -/
inductive GoLayout where
  | hms        -- 15:04:05
  | hm         -- 15:04
  | hmsFrac    -- 15:04:05.999
  | hmsFrac6   -- 15:04:05.999999
  | hmsFrac9   -- 15:04:05.999999999
  | h12msPM    -- 3:04:05 PM
  | h12mPM     -- 3:04 PM
  | hmsTZ      -- 15:04:05 -07:00
  | hmsFracTZ  -- 15:04:05.999 -07:00
  | hmsFrac6TZ -- 15:04:05.999999 -07:00
  | hmsFrac9TZ -- 15:04:05.999999999 -07:00
deriving DecidableEq, Repr

def pHMSFracEnd (s : Str) : Option Clock := do
  let (h, m, sec, _, rest) ← pHMS true s
  let (ns, rest2) := pFracOpt rest
  if rest2 = [] then some ⟨h, m, sec, ns⟩ else none

def pHMSFracTZEnd (s : Str) : Option Clock := do
  let (h, m, sec, _, rest) ← pHMS true s
  let (ns, rest2) := pFracOpt rest
  let rest3 ← pLit ' ' rest2
  let rest4 ← pOffsetColon rest3
  if rest4 = [] then some ⟨h, m, sec, ns⟩ else none

/-- Model of Go `time.Parse(layout, s)` restricted to the clock fields the
source reads back (`Hour`, `Minute`, `Second`, `Nanosecond`). -/
def goParse : GoLayout → Str → Option Clock
  | .hms, s => do
    let (h, m, sec, ns, rest) ← pHMS false s
    if rest = [] then some ⟨h, m, sec, ns⟩ else none
  | .hm, s => do
    let (h, s1) ← getnum false s
    if 24 ≤ h then none else
    let s2 ← pLit ':' s1
    let (m, s3) ← getnum true s2
    if 60 ≤ m then none else
    if s3 = [] then some ⟨h, m, 0, 0⟩ else none
  | .hmsFrac, s => pHMSFracEnd s
  | .hmsFrac6, s => pHMSFracEnd s
  | .hmsFrac9, s => pHMSFracEnd s
  | .h12msPM, s => do
    let (h, m, sec, ns, s5) ← pH12MS s
    let s6 ← pLit ' ' s5
    let (pm, s7) ← pMeridiem s6
    if s7 = [] then some ⟨applyMeridiem pm h, m, sec, ns⟩ else none
  | .h12mPM, s => do
    let (h, s1) ← getnum false s
    if 12 < h then none else
    let s2 ← pLit ':' s1
    let (m, s3) ← getnum true s2
    if 60 ≤ m then none else
    let s4 ← pLit ' ' s3
    let (pm, s5) ← pMeridiem s4
    if s5 = [] then some ⟨applyMeridiem pm h, m, 0, 0⟩ else none
  | .hmsTZ, s => do
    let (h, m, sec, ns, s5) ← pHMS false s
    let s6 ← pLit ' ' s5
    let s7 ← pOffsetColon s6
    if s7 = [] then some ⟨h, m, sec, ns⟩ else none
  | .hmsFracTZ, s => pHMSFracTZEnd s
  | .hmsFrac6TZ, s => pHMSFracTZEnd s
  | .hmsFrac9TZ, s => pHMSFracTZEnd s

/-- The layout list of `Time.parseTime`, in source order. -/
def timeFormats : List GoLayout :=
  [.hms, .hm, .hmsFrac, .hmsFrac6, .hmsFrac9, .h12msPM, .h12mPM, .hmsTZ, .hmsFracTZ]

/-- The layout list of `Time64.parseTime`, in source order. -/
def time64Formats : List GoLayout :=
  [.hms, .hm, .hmsFrac, .hmsFrac6, .hmsFrac9, .h12msPM, .h12mPM, .hmsTZ,
    .hmsFracTZ, .hmsFrac6TZ, .hmsFrac9TZ]

/-- The `for _, format := range formats` loop: first layout that parses
wins. -/
def tryFormats : List GoLayout → Str → Option Clock
  | [], _ => none
  | L :: rest, s =>
    match goParse L s with
    | some c => some c
    | none => tryFormats rest s

/-- Conversion of an integer number of seconds since midnight into an
instant, as in `Time.AppendRow` (and the integer fallback of
`Time.parseTime`): truncating division into hour/minute/second components,
then `time.Date` on the sentinel day. -/
def timeFromSecondsIn (off v : Int) : GoTime :=
  goDateIn off (v.tdiv 3600) ((v.tmod 3600).tdiv 60) (v.tmod 60) 0

/-- Conversion of an integer number of milliseconds since midnight into an
instant, as in `Time64.AppendRow` (and the integer fallback of
`Time64.parseTime`). -/
def time64FromMillisIn (off v : Int) : GoTime :=
  goDateIn off ((v.tdiv 1000).tdiv 3600) (((v.tdiv 1000).tmod 3600).tdiv 60)
    ((v.tdiv 1000).tmod 60) (v.tmod 1000 * 1000000)

def errCannotParseTime (v : Str) : Str := "cannot parse time value: ".data ++ v

def errCannotParseTime64 (v : Str) : Str := "cannot parse time64 value: ".data ++ v

/-! The column models.  The external row store (`proto.ColTime`,
`proto.ColTime64`) is a pass-through adapter per the specification and is
embedded as the `rows` list; `precision` / `precisionSet` mirror the
`WithPrecision` state of `proto.ColTime64`. -/

structure TimeCol where
  chType : Str
  timezone : Option GoLoc
  rows : List GoTime
deriving DecidableEq, Repr

structure Time64Col where
  chType : Str
  timezone : Option GoLoc
  precision : Int
  precisionSet : Bool
  rows : List GoTime
deriving DecidableEq, Repr

/-- Offset applied by `col.row(i)` (`time.In`) and used as the zone of
`time.Date` in `parseTime`: the column zone when set, UTC otherwise. -/
def TimeCol.offset (col : TimeCol) : Int :=
  match col.timezone with
  | some loc => loc.offset
  | none => 0

def Time64Col.offset (col : Time64Col) : Int :=
  match col.timezone with
  | some loc => loc.offset
  | none => 0

/-- Model of `Time.parseTime`: the layout list in order, then the
seconds-since-midnight integer fallback, then the error carrying the
input. -/
def TimeCol.parseTimeStr (col : TimeCol) (value : Str) : Except Str GoTime :=
  match tryFormats timeFormats value with
  | some c => .ok (goDateIn col.offset c.hour c.minute c.second c.nsec)
  | none =>
    match goParseInt value 64 with
    | some secs => .ok (timeFromSecondsIn col.offset secs)
    | none => .error (errCannotParseTime value)

/-- Model of `Time64.parseTime`: the longer layout list, then the
milliseconds-since-midnight integer fallback, then the error carrying the
input. -/
def Time64Col.parseTimeStr (col : Time64Col) (value : Str) : Except Str GoTime :=
  match tryFormats time64Formats value with
  | some c => .ok (goDateIn col.offset c.hour c.minute c.second c.nsec)
  | none =>
    match goParseInt value 64 with
    | some ms => .ok (time64FromMillisIn col.offset ms)
    | none => .error (errCannotParseTime64 value)

/-! Write path (`AppendRow` arms and the batch loops of `Append`). -/

/-- The `case int64:` arm of `Time.AppendRow` (always `time.UTC`). -/
def TimeCol.appendRowInt (col : TimeCol) (v : Int) : TimeCol :=
  { col with rows := col.rows ++ [timeFromSecondsIn 0 v] }

/-- The `case int64:` arm of `Time64.AppendRow` (always `time.UTC`). -/
def Time64Col.appendRowInt (col : Time64Col) (v : Int) : Time64Col :=
  { col with rows := col.rows ++ [time64FromMillisIn 0 v] }

/-- The `case sql.NullTime:` arm of `Time.AppendRow` (also the body run for
a non-nil `*sql.NullTime`). -/
def TimeCol.appendRowNullTime (col : TimeCol) (v : GoNullTime) : TimeCol :=
  { col with rows := col.rows ++ [if v.valid then v.time else goTimeZero] }

def Time64Col.appendRowNullTime (col : Time64Col) (v : GoNullTime) : Time64Col :=
  { col with rows := col.rows ++ [if v.valid then v.time else goTimeZero] }

/-- The `case string:` arm of `Time.AppendRow`. -/
def TimeCol.appendRowStr (col : TimeCol) (v : Str) : Except Str TimeCol :=
  match col.parseTimeStr v with
  | .ok t => .ok { col with rows := col.rows ++ [t] }
  | .error e => .error e

def Time64Col.appendRowStr (col : Time64Col) (v : Str) : Except Str Time64Col :=
  match col.parseTimeStr v with
  | .ok t => .ok { col with rows := col.rows ++ [t] }
  | .error e => .error e

/-- The `case []string:` loop body shared by `Time.Append` and
`Time64.Append`: each element is parsed and appended in turn, and the first
parse failure stops the loop, returning the rows appended so far together
with the error. -/
def strAppendLoop (f : Str → Except Str GoTime) (rows : List GoTime) :
    List Str → List GoTime × Option Str
  | [] => (rows, none)
  | s :: rest =>
    match f s with
    | .ok t => strAppendLoop f (rows ++ [t]) rest
    | .error e => (rows, some e)

/-- The `case []string:` arm of `Time.Append`: on success the null
indicators are the all-zero slice made up front; on failure the slice
result is the error (`nil, err` in the source) while the row store keeps
whatever the loop appended. -/
def TimeCol.appendStrs (col : TimeCol) (v : List Str) :
    TimeCol × Except Str (List Nat) :=
  match strAppendLoop col.parseTimeStr col.rows v with
  | (rows2, none) => ({ col with rows := rows2 }, .ok (List.replicate v.length 0))
  | (rows2, some e) => ({ col with rows := rows2 }, .error e)

def Time64Col.appendStrs (col : Time64Col) (v : List Str) :
    Time64Col × Except Str (List Nat) :=
  match strAppendLoop col.parseTimeStr col.rows v with
  | (rows2, none) => ({ col with rows := rows2 }, .ok (List.replicate v.length 0))
  | (rows2, some e) => ({ col with rows := rows2 }, .error e)

/-- The `case []sql.NullTime:` arm of `Time.Append`: the null-indicator
slice is allocated zeroed and never written, and each element goes through
`AppendRow`. -/
def TimeCol.appendNullTimes (col : TimeCol) (v : List GoNullTime) :
    TimeCol × List Nat :=
  (v.foldl TimeCol.appendRowNullTime col, List.replicate v.length 0)

def Time64Col.appendNullTimes (col : Time64Col) (v : List GoNullTime) :
    Time64Col × List Nat :=
  (v.foldl Time64Col.appendRowNullTime col, List.replicate v.length 0)

/-- The `case []*sql.NullTime:` arm restricted to batches of non-nil
pointers: the indicator is set to 1 only for a nil pointer, so here the
slice stays zeroed and each pointee goes through `AppendRow` (on a nil
pointer the source would dereference nil inside `AppendRow`, which is
outside this model). -/
def TimeCol.appendNullTimePtrsNN (col : TimeCol) (v : List GoNullTime) :
    TimeCol × List Nat :=
  (v.foldl TimeCol.appendRowNullTime col, List.replicate v.length 0)

def Time64Col.appendNullTimePtrsNN (col : Time64Col) (v : List GoNullTime) :
    Time64Col × List Nat :=
  (v.foldl Time64Col.appendRowNullTime col, List.replicate v.length 0)

/-! Read path (`ScanRow`).  Destinations are the closed set of host shapes
the source switches over, plus a generic scanner and an arbitrary
unsupported shape carrying its `%T` name. -/

inductive ScanDest where
  | timeDest
  | timePtrDest
  | int64Dest
  | int64PtrDest
  | nullTimeDest
  | stringDest
  | stringPtrDest
  | scannerDest (typeName : Str)
  | plainDest (typeName : Str)
deriving DecidableEq, Repr

/-- Value written into the destination by a successful `ScanRow`. -/
inductive ScanOut where
  | outTime (t : GoTime)
  | outInt (v : Int)
  | outNullTime (v : GoNullTime)
  | outStr (s : Str)
  | outDelegated (t : GoTime)
deriving DecidableEq, Repr

structure ColumnConverterError where
  op : Str
  toType : Str
  srcType : Str
deriving DecidableEq, Repr

/-- The `%T` name of each destination shape. -/
def destTypeName : ScanDest → Str
  | .timeDest => "*time.Time".data
  | .timePtrDest => "**time.Time".data
  | .int64Dest => "*int64".data
  | .int64PtrDest => "**int64".data
  | .nullTimeDest => "*sql.NullTime".data
  | .stringDest => "*string".data
  | .stringPtrDest => "**string".data
  | .scannerDest n => n
  | .plainDest n => n

/-- Model of `col.row(i)` (panics are outside the model; an out-of-range
index defaults to the zero instant, which no theorem relies on). -/
def TimeCol.rowAt (col : TimeCol) (i : Nat) : GoTime := col.rows.getD i goTimeZero

def Time64Col.rowAt (col : Time64Col) (i : Nat) : GoTime := col.rows.getD i goTimeZero

/-- Seconds since midnight computed by the `*int64` arm of `Time.ScanRow`
from the zone-adjusted clock components. -/
def TimeCol.scanIntVal (col : TimeCol) (i : Nat) : Int :=
  let t := col.rowAt i
  t.hourIn col.offset * 3600 + t.minuteIn col.offset * 60 + t.secondIn col.offset

/-- Milliseconds since midnight computed by the `*int64` arm of
`Time64.ScanRow`. -/
def Time64Col.scanIntVal (col : Time64Col) (i : Nat) : Int :=
  let t := col.rowAt i
  t.hourIn col.offset * 3600000 + t.minuteIn col.offset * 60000
    + t.secondIn col.offset * 1000 + t.nsec / 1000000

def digitCh (n : Nat) : Char := Char.ofNat ('0'.toNat + n)

def pad2 (n : Int) : Str := [digitCh (n.toNat / 10 % 10), digitCh (n.toNat % 10)]

/-- Rendering of the `*string` arm of `Time.ScanRow`:
`Format("15:04:05")` on the zone-adjusted instant. -/
def TimeCol.formatRow (col : TimeCol) (i : Nat) : Str :=
  let t := col.rowAt i
  pad2 (t.hourIn col.offset) ++ ':' :: pad2 (t.minuteIn col.offset)
    ++ ':' :: pad2 (t.secondIn col.offset)

/-- Model of `Time.ScanRow`. -/
def TimeCol.scanRow (col : TimeCol) (dest : ScanDest) (row : Nat) :
    Except ColumnConverterError ScanOut :=
  match dest with
  | .timeDest => .ok (.outTime (col.rowAt row))
  | .timePtrDest => .ok (.outTime (col.rowAt row))
  | .int64Dest => .ok (.outInt (col.scanIntVal row))
  | .int64PtrDest => .ok (.outInt (col.scanIntVal row))
  | .nullTimeDest => .ok (.outNullTime ⟨true, col.rowAt row⟩)
  | .stringDest => .ok (.outStr (col.formatRow row))
  | .stringPtrDest => .ok (.outStr (col.formatRow row))
  | .scannerDest _ => .ok (.outDelegated (col.rowAt row))
  | .plainDest n => .error ⟨"ScanRow".data, n, "Time".data⟩

/-- Model of `Time64.ScanRow`: no `*string` / `**string` arms exist in the
source, so those shapes fall to the default branch; a plain string is not
an `sql.Scanner`, hence they error like any unsupported shape. -/
def Time64Col.scanRow (col : Time64Col) (dest : ScanDest) (row : Nat) :
    Except ColumnConverterError ScanOut :=
  match dest with
  | .timeDest => .ok (.outTime (col.rowAt row))
  | .timePtrDest => .ok (.outTime (col.rowAt row))
  | .int64Dest => .ok (.outInt (col.scanIntVal row))
  | .int64PtrDest => .ok (.outInt (col.scanIntVal row))
  | .nullTimeDest => .ok (.outNullTime ⟨true, col.rowAt row⟩)
  | .stringDest => .error ⟨"ScanRow".data, "*string".data, "Time64".data⟩
  | .stringPtrDest => .error ⟨"ScanRow".data, "**string".data, "Time64".data⟩
  | .scannerDest _ => .ok (.outDelegated (col.rowAt row))
  | .plainDest n => .error ⟨"ScanRow".data, n, "Time64".data⟩

/-! Type-descriptor parsers (`Time.parse`, `Time64.parse`).  Both assign
`col.chType = t` before any validation; `Time64.parse` sets the precision
before resolving the timezone in the two-parameter form. -/

inductive ParseTypeError where
  | unsupportedType (t : Str)
  | numError (s : Str)
  | zoneError (name : Str)
deriving DecidableEq, Repr

/-- Model of `Time.parse`. -/
def TimeCol.parseType (col : TimeCol) (t : Str) (tz : Option GoLoc)
    (reg : TzRegistry) : TimeCol × Option ParseTypeError :=
  let col1 := { col with chType := t }
  if "Time('".data.isPrefixOf t then
    let timezoneName := trimSuf "')".data (trimPre "Time('".data t)
    match reg timezoneName with
    | none => (col1, some (.zoneError timezoneName))
    | some loc => ({ col1 with timezone := some loc }, none)
  else if t = "Time".data then ({ col1 with timezone := tz }, none)
  else (col1, some (.unsupportedType t))

/-- Model of `Time64.parse`.  The precision is parsed with
`strconv.ParseInt(_, 10, 8)` (signed 8-bit range) and cast to a byte. -/
def Time64Col.parseType (col : Time64Col) (t : Str) (tz : Option GoLoc)
    (reg : TzRegistry) : Time64Col × Option ParseTypeError :=
  let col1 := { col with chType := t }
  if "Time64(".data.isPrefixOf t then
    if containsComma t then
      let parts := splitComma t
      if parts.length ≠ 2 then (col1, some (.unsupportedType t))
      else
        let precisionStr := trimSuf ")".data (trimPre "Time64(".data (parts.getD 0 []))
        match goParseInt precisionStr 8 with
        | none => (col1, some (.numError precisionStr))
        | some precision =>
          let col2 := { col1 with precision := precision % 256, precisionSet := true }
          let timezoneName := trimSuf "')".data (trimPre " '".data (parts.getD 1 []))
          match reg timezoneName with
          | none => (col2, some (.zoneError timezoneName))
          | some loc => ({ col2 with timezone := some loc }, none)
    else
      let params := trimSuf ")".data (trimPre "Time64(".data t)
      match goParseInt params 8 with
      | none => (col1, some (.numError params))
      | some precision =>
        let col2 := { col1 with precision := precision % 256, precisionSet := true }
        ({ col2 with timezone := tz }, none)
  else (col1, some (.unsupportedType t))

/-- Instant stored by the `sql.NullTime` arm of `AppendRow`: the wrapped
instant when valid, the zero instant otherwise. -/
def nullStoredVal (x : GoNullTime) : GoTime := if x.valid then x.time else goTimeZero

/-! Concrete columns used in witnesses and counterexamples. -/

def tCol0 : TimeCol := ⟨"Time".data, none, []⟩

def t64Col3 : Time64Col := ⟨"Time64(3)".data, none, 3, true, []⟩

def t64Col6 : Time64Col := ⟨"Time64(6)".data, none, 6, true, []⟩

def t64Col9 : Time64Col := ⟨"Time64(9)".data, none, 9, true, []⟩

/-- Registry resolving only the name `UTC`, to offset 0. -/
def regUTC : TzRegistry := fun s => if s = "UTC".data then some ⟨0⟩ else none

/-- A freshly allocated `Time` column before `parse` configures it. -/
def tEmpty : TimeCol := ⟨[], none, []⟩

/-- A freshly allocated `Time64` column before `parse` configures it. -/
def t64Empty : Time64Col := ⟨[], none, 0, false, []⟩

/-- Interpretation of a signed integer as a tick count at a declared
precision `p`, following the specification's words ("precision 6 means
1 unit = 1 microsecond, precision 9 means 1 nanosecond"): `v` ticks of
`10^(-p)` seconds, split into whole seconds and a sub-second fraction.
This definition follows the spec, not the source, and exists to be
compared with what the source actually does. -/
def time64TicksAtPrecisionSpec (p : Nat) (v : Int) : GoTime :=
  ⟨v.tdiv (10 ^ p), v.tmod (10 ^ p) * 10 ^ (9 - p)⟩

/-! Helper lemmas. -/

theorem getD_concat_len (l : List GoTime) (x : GoTime) :
    (l ++ [x]).getD l.length goTimeZero = x := by
  simp [List.getD]

/-- The instant stored by the `int64` arm of `Time.AppendRow` sits exactly
`t` seconds after the epoch, for either sign of `t`: the truncating
decomposition recomposes to `t` and `time.Date` absorbs out-of-range
components. -/
theorem timeFromSeconds_eq (t : Int) : timeFromSecondsIn 0 t = ⟨t, 0⟩ := by
  simp only [timeFromSecondsIn, goDateIn, GoTime.mk.injEq]
  refine ⟨?_, by norm_num⟩
  have h := hms_recompose t
  omega

/-- The instant stored by the `int64` arm of `Time64.AppendRow` for a
non-negative input: `v` is read as milliseconds. -/
theorem time64FromMillis_eq (v : Int) (h : 0 ≤ v) :
    time64FromMillisIn 0 v = ⟨v.tdiv 1000, v.tmod 1000 * 1000000⟩ := by
  have hmodnn : 0 ≤ v.tmod 1000 := Int.tmod_nonneg _ h
  have hmodlt : v.tmod 1000 < 1000 := Int.tmod_lt_of_pos v (by norm_num)
  simp only [time64FromMillisIn, goDateIn, GoTime.mk.injEq]
  constructor
  · have hr := hms_recompose (v.tdiv 1000)
    have hz : v.tmod 1000 * 1000000 / 1000000000 = 0 :=
      Int.ediv_eq_zero_of_lt (by omega) (by omega)
    omega
  · exact Int.emod_eq_of_lt (by omega) (by omega)

theorem appendRowInt_offset (col : TimeCol) (v : Int) :
    (col.appendRowInt v).offset = col.offset := rfl

theorem appendRowInt64_offset (col : Time64Col) (v : Int) :
    (col.appendRowInt v).offset = col.offset := rfl

/-- Scanning a stored instant back as seconds since midnight on a column
whose display offset is zero yields the instant's epoch second modulo a
day. -/
theorem scanIntVal_eq (col : TimeCol) (i : Nat) (hoff : col.offset = 0) :
    col.scanIntVal i = (col.rowAt i).sec % 86400 := by
  simp only [TimeCol.scanIntVal, GoTime.hourIn, GoTime.minuteIn, GoTime.secondIn,
    GoTime.daySec, hoff]
  omega

theorem scanIntVal64_eq (col : Time64Col) (i : Nat) (hoff : col.offset = 0) :
    col.scanIntVal i = (col.rowAt i).sec % 86400 * 1000 + (col.rowAt i).nsec / 1000000 := by
  simp only [Time64Col.scanIntVal, GoTime.hourIn, GoTime.minuteIn, GoTime.secondIn,
    GoTime.daySec, hoff]
  omega

/-- Appending any integer number of seconds to a zero-offset `Time` column
and scanning the row back as an integer yields the input modulo a day. -/
theorem roundtrip_seconds_aux (col : TimeCol) (t : Int) (hoff : col.offset = 0) :
    (col.appendRowInt t).scanRow .int64Dest col.rows.length =
      .ok (.outInt (t % 86400)) := by
  simp only [TimeCol.scanRow, Except.ok.injEq, ScanOut.outInt.injEq]
  rw [scanIntVal_eq _ _ (by rw [appendRowInt_offset, hoff])]
  simp only [TimeCol.rowAt, TimeCol.appendRowInt, timeFromSeconds_eq,
    getD_concat_len]

/-- Appending a non-negative in-range millisecond count to a zero-offset
`Time64` column and scanning the row back as an integer is the identity. -/
theorem roundtrip_ms_aux (col : Time64Col) (v : Int) (hoff : col.offset = 0)
    (h0 : 0 ≤ v) (h1 : v < 86400000) :
    (col.appendRowInt v).scanRow .int64Dest col.rows.length =
      .ok (.outInt v) := by
  simp only [Time64Col.scanRow, Except.ok.injEq, ScanOut.outInt.injEq]
  rw [scanIntVal64_eq _ _ (by rw [appendRowInt64_offset, hoff])]
  simp only [Time64Col.rowAt, Time64Col.appendRowInt, time64FromMillis_eq v h0,
    getD_concat_len]
  rw [Int.tdiv_eq_ediv h0 (by norm_num), Int.tmod_eq_emod h0 (by norm_num),
    Int.mul_ediv_cancel _ (by norm_num)]
  omega

/-! C1.  The spec claims the append/scan signed-integer round trip holds
for both variants "at the declared precision".  It holds for the `Time`
variant at seconds scale, but the `Time64` variant reads the integer as
milliseconds regardless of the declared precision, so for a precision-6
column the valid microsecond tick 86400000 (86.4 seconds after midnight)
wraps a whole day and scans back as 0. -/

/-- C1 (counterexample): on a precision-6 `Time64` column the valid
microsecond tick count 86400000 does not round-trip: it is read as
milliseconds, wraps exactly one day, and scans back as 0. -/
theorem c1_tick_roundtrip_counterexample :
    (t64Col6.appendRowInt 86400000).scanRow .int64Dest 0 = .ok (.outInt 0) ∧
      (0 : Int) ≠ 86400000 ∧ (0 : Int) ≤ 86400000 ∧
      (86400000 : Int) < 86400 * 10 ^ 6 := by
  refine ⟨?_, by decide, by decide, by decide⟩
  rfl

/-- C1 (amended): appending a non-negative in-range tick as a signed
integer and scanning the same row back as a signed integer yields the tick
for a zero-offset column of either variant, where the `Time` tick is in
seconds with range `[0, 86400)` and the `Time64` tick is in milliseconds
with range `[0, 86400000)` irrespective of the declared precision. -/
theorem c1_tick_roundtrip_amended :
    (∀ (col : TimeCol) (t : Int), col.offset = 0 → 0 ≤ t → t < 86400 →
      (col.appendRowInt t).scanRow .int64Dest col.rows.length = .ok (.outInt t)) ∧
    (∀ (col : Time64Col) (v : Int), col.offset = 0 → 0 ≤ v → v < 86400000 →
      (col.appendRowInt v).scanRow .int64Dest col.rows.length = .ok (.outInt v)) := by
  constructor
  · intro col t hoff h0 h1
    have h := roundtrip_seconds_aux col t hoff
    rwa [Int.emod_eq_of_lt h0 h1] at h
  · intro col v hoff h0 h1
    exact roundtrip_ms_aux col v hoff h0 h1

/-- C1 (witness for the amended theorem): the round trip at 12:30:45 on a
plain `Time` column and at 12:30:45.123 on a precision-6 `Time64` column. -/
theorem c1_tick_roundtrip_witness :
    (tCol0.appendRowInt 45045).scanRow .int64Dest 0 = .ok (.outInt 45045) ∧
      (t64Col6.appendRowInt 45045123).scanRow .int64Dest 0 =
        .ok (.outInt 45045123) :=
  ⟨c1_tick_roundtrip_amended.1 tCol0 45045 (by decide) (by decide) (by decide),
    c1_tick_roundtrip_amended.2 t64Col6 45045123 (by decide) (by decide) (by decide)⟩

/-! C2.  The spec claims the signed-integer write/read paths of `Time64`
work at the column's declared precision.  The source divides by 1000 and
multiplies the remainder by 10^6 unconditionally: the integer is always a
millisecond count (and `ScanRow` always returns milliseconds), whatever
precision was declared. -/

/-- C2 (counterexample): on a precision-6 column, appending the integer
1000000 — one second in the declared microsecond ticks — stores the
instant 00:16:40 (1000 seconds, the millisecond reading), not the
spec-interpretation 00:00:01. -/
theorem c2_precision_interpretation_counterexample :
    (t64Col6.appendRowInt 1000000).rows = [⟨1000, 0⟩] ∧
      time64TicksAtPrecisionSpec 6 1000000 = ⟨1, 0⟩ ∧
      ((1000 : Int), (0 : Int)) ≠ ((1 : Int), (0 : Int)) := by
  refine ⟨?_, by decide, by decide⟩
  decide

/-- C2 (amended): the signed-integer arm of `Time64.AppendRow` stores the
millisecond interpretation of its input regardless of the column's declared
precision — two columns with different precisions store the same instant —
and `ScanRow` into a signed integer re-derives the millisecond count (shown
for non-negative in-range ticks on zero-offset columns). -/
theorem c2_millisecond_interpretation_amended :
    (∀ (c1 c2 : Time64Col) (v : Int), (c1.appendRowInt v).rows.getLast? =
        (c2.appendRowInt v).rows.getLast?) ∧
    (∀ (col : Time64Col) (v : Int), 0 ≤ v →
      (col.appendRowInt v).rows.getLast? = some ⟨v.tdiv 1000, v.tmod 1000 * 1000000⟩) ∧
    (∀ (col : Time64Col) (v : Int), col.offset = 0 → 0 ≤ v → v < 86400000 →
      (col.appendRowInt v).scanRow .int64Dest col.rows.length = .ok (.outInt v)) := by
  refine ⟨?_, ?_, ?_⟩
  · intro c1 c2 v
    simp [Time64Col.appendRowInt]
  · intro col v h0
    simp [Time64Col.appendRowInt, time64FromMillis_eq v h0]
  · intro col v hoff h0 h1
    exact roundtrip_ms_aux col v hoff h0 h1

/-- C2 (witness for the amended theorem): precision-3 and precision-9
columns store the same instant for tick 45045123, which is 12:30:45.123
read as milliseconds and scans back unchanged. -/
theorem c2_millisecond_interpretation_witness :
    (t64Col3.appendRowInt 45045123).rows.getLast? =
        (t64Col9.appendRowInt 45045123).rows.getLast? ∧
      (t64Col3.appendRowInt 45045123).rows.getLast? =
        some ⟨45045, 123000000⟩ ∧
      (t64Col3.appendRowInt 45045123).scanRow .int64Dest 0 =
        .ok (.outInt 45045123) :=
  ⟨c2_millisecond_interpretation_amended.1 t64Col3 t64Col9 45045123,
    by
      have h := c2_millisecond_interpretation_amended.2.1 t64Col3 45045123 (by decide)
      rw [h]; decide,
    c2_millisecond_interpretation_amended.2.2 t64Col3 45045123 (by decide)
      (by decide) (by decide)⟩

/-! C10.  Negative seconds appended to a `Time` column wrap modulo a day on
the way back out: the stored instant falls on the previous calendar day and
the read path's non-negative clock components re-encode it as `t + 86400`. -/

/-- C10: for `-86400 ≤ t < 0` appended as a signed integer to a zero-offset
`Time` column, scanning the row back as a signed integer yields
`t + 86400`, not `t`. -/
theorem c10_negative_tick_wraparound (col : TimeCol) (t : Int)
    (hoff : col.offset = 0) (h0 : -86400 ≤ t) (h1 : t < 0) :
    (col.appendRowInt t).scanRow .int64Dest col.rows.length =
      .ok (.outInt (t + 86400)) := by
  have h := roundtrip_seconds_aux col t hoff
  have hmod : t % 86400 = t + 86400 := by omega
  rwa [hmod] at h

/-- C10 (witness): one second before midnight, appended as -1, scans back
as 86399. -/
theorem c10_negative_tick_wraparound_witness :
    (tCol0.appendRowInt (-1)).scanRow .int64Dest 0 = .ok (.outInt 86399) :=
  c10_negative_tick_wraparound tCol0 (-1) (by decide) (by decide) (by decide)

/-! C3.  The spec claims a failing batch conversion leaves the row store
exactly as before the call.  The `[]string` loop appends each parsed value
before looking at the next element, so on the first unconvertible element
the call errors but every earlier element remains appended. -/

/-- The batch loop appends exactly the successfully parsed leading elements
and stops with the error of the first unparsable one. -/
theorem strAppendLoop_partial (f : Str → Except Str GoTime) (rows : List GoTime)
    (good : List Str) (ts : List GoTime) (bad : Str) (rest : List Str) (e : Str)
    (hgood : good.mapM f = .ok ts) (hbad : f bad = .error e) :
    strAppendLoop f rows (good ++ bad :: rest) = (rows ++ ts, some e) := by
  induction good generalizing rows ts with
  | nil =>
    simp only [List.mapM_nil, pure, Except.pure, Except.ok.injEq] at hgood
    subst hgood
    simp [strAppendLoop, hbad]
  | cons s good ih =>
    rw [List.mapM_cons] at hgood
    cases hfs : f s with
    | error e2 => rw [hfs] at hgood; simp [bind, Except.bind] at hgood
    | ok t =>
      rw [hfs] at hgood
      cases hgs : good.mapM f with
      | error e2 =>
        rw [hgs] at hgood; simp [bind, Except.bind] at hgood
      | ok ts2 =>
        rw [hgs] at hgood
        simp only [bind, Except.bind, pure, Except.pure, Except.ok.injEq] at hgood
        subst hgood
        simp only [List.cons_append, strAppendLoop, hfs, List.append_eq]
        rw [ih (rows ++ [t]) ts2 hgs]
        simp

/-- C3 (counterexample): appending the batch `["00:00:00", "zzz"]` to an
empty `Time` column returns the parse error for `"zzz"` but leaves the
midnight row from the first element in the store, which therefore is not
"exactly as it was before the call". -/
theorem c3_batch_abort_counterexample :
    (tCol0.appendStrs ["00:00:00".data, "zzz".data]).1.rows = [⟨0, 0⟩] ∧
      (tCol0.appendStrs ["00:00:00".data, "zzz".data]).2 =
        .error (errCannotParseTime "zzz".data) ∧
      ([⟨0, 0⟩] : List GoTime) ≠ tCol0.rows := by
  exact ⟨rfl, rfl, by decide⟩

/-- C3 (amended): when a `[]string` batch contains an unconvertible
element, `Append` of either variant returns the conversion error of the
first such element and no later element is appended, but every element
preceding it has already been appended to the row store. -/
theorem c3_batch_abort_amended :
    (∀ (col : TimeCol) (good : List Str) (ts : List GoTime) (bad : Str)
        (rest : List Str) (e : Str),
      good.mapM col.parseTimeStr = .ok ts → col.parseTimeStr bad = .error e →
      col.appendStrs (good ++ bad :: rest) =
        ({ col with rows := col.rows ++ ts }, .error e)) ∧
    (∀ (col : Time64Col) (good : List Str) (ts : List GoTime) (bad : Str)
        (rest : List Str) (e : Str),
      good.mapM col.parseTimeStr = .ok ts → col.parseTimeStr bad = .error e →
      col.appendStrs (good ++ bad :: rest) =
        ({ col with rows := col.rows ++ ts }, .error e)) := by
  constructor
  · intro col good ts bad rest e hgood hbad
    simp only [TimeCol.appendStrs, strAppendLoop_partial col.parseTimeStr col.rows
      good ts bad rest e hgood hbad]
  · intro col good ts bad rest e hgood hbad
    simp only [Time64Col.appendStrs, strAppendLoop_partial col.parseTimeStr col.rows
      good ts bad rest e hgood hbad]

/-- C3 (witness for the amended theorem): the batch `["00:00:00", "zzz"]`
on an empty `Time` column keeps the parsed midnight row and reports the
error for `"zzz"`. -/
theorem c3_batch_abort_witness :
    tCol0.appendStrs ["00:00:00".data, "zzz".data] =
      ({ tCol0 with rows := tCol0.rows ++ [⟨0, 0⟩] },
        .error (errCannotParseTime "zzz".data)) :=
  c3_batch_abort_amended.1 tCol0 ["00:00:00".data] [⟨0, 0⟩] "zzz".data []
    (errCannotParseTime "zzz".data) rfl rfl

/-! C4.  The spec claims a nullable wrapper with `valid=false` produces a
null indicator of 1.  In the source the `[]sql.NullTime` arm never writes
the indicator slice — it is 1 only for a nil `*sql.NullTime` pointer — so
an invalid wrapper stores the sentinel zero instant with indicator 0. -/

theorem foldl_appendRowNullTime (col : TimeCol) (v : List GoNullTime) :
    v.foldl TimeCol.appendRowNullTime col =
      { col with rows := col.rows ++ v.map nullStoredVal } := by
  induction v generalizing col with
  | nil => simp
  | cons x v ih =>
    simp only [List.foldl_cons, List.map_cons, ih, TimeCol.appendRowNullTime,
      nullStoredVal, List.append_assoc, List.cons_append, List.nil_append]

theorem foldl_appendRowNullTime64 (col : Time64Col) (v : List GoNullTime) :
    v.foldl Time64Col.appendRowNullTime col =
      { col with rows := col.rows ++ v.map nullStoredVal } := by
  induction v generalizing col with
  | nil => simp
  | cons x v ih =>
    simp only [List.foldl_cons, List.map_cons, ih, Time64Col.appendRowNullTime,
      nullStoredVal, List.append_assoc, List.cons_append, List.nil_append]

/-- C4 (counterexample): appending the single invalid wrapper
`sql.NullTime{Valid: false}` (wrapped instant 08:15:30) to an empty `Time`
column stores the sentinel zero instant but yields null indicator 0, not
the claimed 1. -/
theorem c4_null_indicator_counterexample :
    (tCol0.appendNullTimes [⟨false, ⟨29730, 0⟩⟩]).2 = [0] ∧
      (tCol0.appendNullTimes [⟨false, ⟨29730, 0⟩⟩]).1.rows = [goTimeZero] ∧
      (0 : Nat) ≠ 1 := by
  exact ⟨rfl, by decide, by decide⟩

/-- C4 (amended): for a batch of `sql.NullTime` values (and likewise for a
batch of non-nil `*sql.NullTime` pointers), an element with `valid=true`
appends the wrapped instant and an element with `valid=false` appends the
sentinel zero instant, while the returned null-indicator slice is all
zeros in both cases — the indicator is 1 only for a nil pointer, never for
an invalid wrapper. -/
theorem c4_null_indicator_amended :
    (∀ (col : TimeCol) (v : List GoNullTime),
      col.appendNullTimes v =
        ({ col with rows := col.rows ++ v.map nullStoredVal }, List.replicate v.length 0)) ∧
    (∀ (col : Time64Col) (v : List GoNullTime),
      col.appendNullTimes v =
        ({ col with rows := col.rows ++ v.map nullStoredVal }, List.replicate v.length 0)) ∧
    (∀ (col : TimeCol) (v : List GoNullTime),
      col.appendNullTimePtrsNN v = col.appendNullTimes v) ∧
    (∀ (col : Time64Col) (v : List GoNullTime),
      col.appendNullTimePtrsNN v = col.appendNullTimes v) := by
  refine ⟨?_, ?_, fun col v => rfl, fun col v => rfl⟩
  · intro col v
    simp only [TimeCol.appendNullTimes, foldl_appendRowNullTime]
  · intro col v
    simp only [Time64Col.appendNullTimes, foldl_appendRowNullTime64]

/-! C5.  Writing `"12:30:45"` to a `Time` column and reading the row back
as a string yields `"12:30:45"`.  For `Time64`, however, `ScanRow` has no
`*string` case at all — although the constant `defaultTime64Format =
"15:04:05.999999999"` is declared for exactly that purpose, it is never
used — so reading back as a string returns a conversion error instead of
the claimed fixed-layout string.  The claim matches the evident intent
(the orphaned constant), making this a bug in the code rather than in the
spec. -/

/-- C5: the `Time` string round trip succeeds as claimed, while on a
precision-6 `Time64` column the write of `"12:30:45.123456"` stores
12:30:45.123456 but the read back into a string fails with the `ScanRow`
conversion error naming `*string`. -/
theorem c5_string_roundtrip_code_bug :
    tCol0.appendRowStr "12:30:45".data = .ok { tCol0 with rows := [⟨45045, 0⟩] } ∧
      TimeCol.scanRow { tCol0 with rows := [⟨45045, 0⟩] } .stringDest 0 =
        .ok (.outStr "12:30:45".data) ∧
      t64Col6.appendRowStr "12:30:45.123456".data =
        .ok { t64Col6 with rows := [⟨45045, 123456000⟩] } ∧
      Time64Col.scanRow { t64Col6 with rows := [⟨45045, 123456000⟩] } .stringDest 0 =
        .error ⟨"ScanRow".data, "*string".data, "Time64".data⟩ :=
  ⟨rfl, rfl, rfl, rfl⟩

/-! C6.  The spec claims `Time64(<precision>)` parses only for precision
0–9.  The source parses the parameter with `strconv.ParseInt(_, 10, 8)`,
so any value in the signed 8-bit range [-128, 127] is accepted and cast to
a byte: `Time64(12)` succeeds with precision 12 and `Time64(-1)` succeeds
with precision 255. -/

theorem isPre_append (p r : Str) : p.isPrefixOf (p ++ r) = true :=
  List.isPrefixOf_iff_prefix.mpr (List.prefix_append p r)

theorem isSuf_append (q r : Str) : q.isSuffixOf (r ++ q) = true :=
  List.isSuffixOf_iff_suffix.mpr (List.suffix_append r q)

theorem trimPre_cancel (p r : Str) : trimPre p (p ++ r) = r := by
  simp [trimPre, isPre_append, List.drop_left]

theorem trimSuf_cancel (q r : Str) : trimSuf q (r ++ q) = r := by
  simp [trimSuf, isSuf_append, List.length_append, List.take_left]

/-- Parsing `Time64(<ps>)` for a comma-free parameter string reduces to
`strconv.ParseInt(ps, 10, 8)`: failure keeps every field but the type
string, success stores the parameter modulo 256 and the default zone. -/
theorem parseType64_single (col : Time64Col) (tz : Option GoLoc) (reg : TzRegistry)
    (ps : Str) (hnc : ps.any (fun c => c = ',') = false) :
    Time64Col.parseType col ("Time64(".data ++ ps ++ ")".data) tz reg =
      (match goParseInt ps 8 with
       | none => ({ col with chType := "Time64(".data ++ ps ++ ")".data }, some (.numError ps))
       | some precision => ({ col with chType := "Time64(".data ++ ps ++ ")".data, precision := precision % 256, precisionSet := true, timezone := tz }, none)) := by
  have hpre : "Time64(".data.isPrefixOf ("Time64(".data ++ ps ++ ")".data) = true := by
    rw [List.append_assoc]; exact isPre_append _ _
  have hcomma : containsComma ("Time64(".data ++ ps ++ ")".data) = false := by
    simp only [containsComma, List.any_append, Bool.or_eq_false_iff]
    exact ⟨⟨by decide, hnc⟩, by decide⟩
  have htrim : trimSuf ")".data (trimPre "Time64(".data ("Time64(".data ++ ps ++ ")".data)) = ps := by
    rw [List.append_assoc, trimPre_cancel, trimSuf_cancel]
  simp only [Time64Col.parseType, hpre, hcomma, htrim, if_true, Bool.false_eq_true,
    if_false]

/-- C6 (counterexample): `Time64(12)` and `Time64(-1)` both parse
successfully — with stored precisions 12 and 255 — although the claim says
any precision outside 0–9 is a parse error. -/
theorem c6_precision_range_counterexample :
    (Time64Col.parseType t64Empty "Time64(12)".data none regUTC).2 = none ∧
      (Time64Col.parseType t64Empty "Time64(12)".data none regUTC).1.precision = 12 ∧
      (Time64Col.parseType t64Empty "Time64(-1)".data none regUTC).2 = none ∧
      (Time64Col.parseType t64Empty "Time64(-1)".data none regUTC).1.precision = 255 :=
  ⟨rfl, by decide, rfl, by decide⟩

/-- C6 (amended): a single-parameter `Time64(<ps>)` descriptor parses
successfully exactly when `ps` parses as a signed 8-bit integer — the
stored precision is that value modulo 256, with no 0–9 range check — while
a malformed parameter such as `Time64(bad)` fails, a parameter list that
does not split on commas into exactly two parts such as `Time64(3,4,5)`
fails, and `Time64(6, 'UTC')` parses with precision 6 and zone UTC. -/
theorem c6_parse_precision_amended :
    (∀ (col : Time64Col) (tz : Option GoLoc) (reg : TzRegistry) (ps : Str) (n : Int),
      ps.any (fun c => c = ',') = false → goParseInt ps 8 = some n →
      Time64Col.parseType col ("Time64(".data ++ ps ++ ")".data) tz reg =
        ({ col with chType := "Time64(".data ++ ps ++ ")".data, precision := n % 256, precisionSet := true, timezone := tz }, none)) ∧
    (∀ (col : Time64Col) (tz : Option GoLoc) (reg : TzRegistry) (ps : Str),
      ps.any (fun c => c = ',') = false → goParseInt ps 8 = none →
      Time64Col.parseType col ("Time64(".data ++ ps ++ ")".data) tz reg =
        ({ col with chType := "Time64(".data ++ ps ++ ")".data }, some (.numError ps))) ∧
    (Time64Col.parseType t64Empty "Time64(3,4,5)".data none regUTC).2 =
      some (.unsupportedType "Time64(3,4,5)".data) ∧
    Time64Col.parseType t64Empty "Time64(6, 'UTC')".data none regUTC =
      ({ t64Empty with chType := "Time64(6, 'UTC')".data, precision := 6, precisionSet := true, timezone := some ⟨0⟩ }, none) := by
  refine ⟨?_, ?_, rfl, rfl⟩
  · intro col tz reg ps n hnc hps
    rw [parseType64_single col tz reg ps hnc, hps]
  · intro col tz reg ps hnc hps
    rw [parseType64_single col tz reg ps hnc, hps]

/-- C6 (witness for the amended theorem): `Time64(7)` parses with
precision 7, and `Time64(bad)` fails with the number parse error. -/
theorem c6_parse_precision_witness :
    Time64Col.parseType t64Empty ("Time64(".data ++ "7".data ++ ")".data) none regUTC =
      ({ t64Empty with chType := "Time64(".data ++ "7".data ++ ")".data, precision := 7, precisionSet := true, timezone := none }, none) ∧
    Time64Col.parseType t64Empty ("Time64(".data ++ "bad".data ++ ")".data) none regUTC =
      ({ t64Empty with chType := "Time64(".data ++ "bad".data ++ ")".data }, some (.numError "bad".data)) :=
  ⟨c6_parse_precision_amended.1 t64Empty none regUTC "7".data 7 (by decide) (by decide),
    c6_parse_precision_amended.2.1 t64Empty none regUTC "bad".data (by decide) (by decide)⟩

/-! C7.  The spec claims a failed type-descriptor parse modifies no field
of the column.  Both `parse` functions assign `col.chType = t` before any
validation, so the stored type string is overwritten even when the parse
fails; in the two-parameter `Time64` form the precision is also set before
the timezone is resolved, so a zone-resolution failure leaves the new
precision behind.  The timezone field and the row store are indeed
untouched on failure. -/

/-- C7 (counterexample): `parse("Bogus")` on a fresh `Time` column fails
but overwrites the stored type string, and `parse("Time64(3, 'Nope')")`
on a fresh `Time64` column fails at zone resolution but leaves the
precision set. -/
theorem c7_parse_failure_state_counterexample :
    (TimeCol.parseType tEmpty "Bogus".data none regUTC).1.chType = "Bogus".data ∧
      (TimeCol.parseType tEmpty "Bogus".data none regUTC).2 =
        some (.unsupportedType "Bogus".data) ∧
      "Bogus".data ≠ tEmpty.chType ∧
      (Time64Col.parseType t64Empty "Time64(3, 'Nope')".data none regUTC).1.precisionSet = true ∧
      (Time64Col.parseType t64Empty "Time64(3, 'Nope')".data none regUTC).2 =
        some (.zoneError "Nope".data) ∧
      t64Empty.precisionSet = false :=
  ⟨rfl, rfl, by decide, rfl, rfl, rfl⟩

/-- C7 (amended): every call to `parse` of either variant — failing or not
— overwrites the column's stored type string with its argument; on failure
the timezone field and the row store are unchanged (for `Time64`, the
precision too is unchanged on failure, except that a zone-resolution
failure in the two-parameter form has already recorded the parsed
precision). -/
theorem c7_parse_failure_state_amended :
    (∀ (col : TimeCol) (t : Str) (tz : Option GoLoc) (reg : TzRegistry),
      (TimeCol.parseType col t tz reg).1.chType = t ∧
      ((TimeCol.parseType col t tz reg).2.isSome = true →
        (TimeCol.parseType col t tz reg).1.timezone = col.timezone ∧
        (TimeCol.parseType col t tz reg).1.rows = col.rows)) ∧
    (∀ (col : Time64Col) (t : Str) (tz : Option GoLoc) (reg : TzRegistry),
      (Time64Col.parseType col t tz reg).1.chType = t ∧
      ((Time64Col.parseType col t tz reg).2.isSome = true →
        (Time64Col.parseType col t tz reg).1.timezone = col.timezone ∧
        (Time64Col.parseType col t tz reg).1.rows = col.rows) ∧
      (∀ (s : Str), (Time64Col.parseType col t tz reg).2 = some (.numError s) ∨
          (Time64Col.parseType col t tz reg).2 = some (.unsupportedType t) →
        (Time64Col.parseType col t tz reg).1.precision = col.precision ∧
        (Time64Col.parseType col t tz reg).1.precisionSet = col.precisionSet)) := by
  constructor
  · intro col t tz reg
    simp only [TimeCol.parseType]
    split
    · cases hreg : reg (trimSuf "')".data (trimPre "Time('".data t)) <;> simp [hreg]
    · split <;> simp
  · intro col t tz reg
    simp only [Time64Col.parseType]
    split
    · split
      · split
        · simp
        · cases hpi : goParseInt (trimSuf ")".data (trimPre "Time64(".data ((splitComma t).getD 0 []))) 8 with
          | none => simp [hpi]
          | some precision =>
            cases hreg : reg (trimSuf "')".data (trimPre " '".data ((splitComma t).getD 1 []))) <;>
              simp [hpi, hreg]
      · cases hpi : goParseInt (trimSuf ")".data (trimPre "Time64(".data t)) 8 with
        | none => simp [hpi]
        | some precision => simp [hpi]
    · simp

/-- C7 (witness for the amended theorem): at the failing descriptor
`"Bogus"` the type string is overwritten while timezone and rows are
unchanged. -/
theorem c7_parse_failure_state_witness :
    (TimeCol.parseType tEmpty "Bogus".data none regUTC).1.chType = "Bogus".data ∧
      (TimeCol.parseType tEmpty "Bogus".data none regUTC).1.timezone = tEmpty.timezone ∧
      (TimeCol.parseType tEmpty "Bogus".data none regUTC).1.rows = tEmpty.rows :=
  ⟨(c7_parse_failure_state_amended.1 tEmpty "Bogus".data none regUTC).1,
    ((c7_parse_failure_state_amended.1 tEmpty "Bogus".data none regUTC).2 rfl).1,
    ((c7_parse_failure_state_amended.1 tEmpty "Bogus".data none regUTC).2 rfl).2⟩

/-! C8.  The string write path tries the fixed layout list in order, the
first layout that parses wins, then falls back to a bare integer tick
count, then fails carrying the input — all as claimed — but the `Time64`
variant's error text is "cannot parse time64 value", not the claimed
"cannot parse time value". -/

theorem tryFormats_first (l1 : List GoLayout) (L : GoLayout) (l2 : List GoLayout)
    (s : Str) (c : Clock) (h1 : ∀ X ∈ l1, goParse X s = none)
    (h2 : goParse L s = some c) : tryFormats (l1 ++ L :: l2) s = some c := by
  induction l1 with
  | nil => simp [tryFormats, h2]
  | cons X l1 ih =>
    have hX : goParse X s = none := h1 X (by simp)
    simp only [List.cons_append, tryFormats, hX]
    exact ih (fun Y hY => h1 Y (by simp [hY]))

theorem tryFormats_none (l : List GoLayout) (s : Str)
    (h : ∀ X ∈ l, goParse X s = none) : tryFormats l s = none := by
  induction l with
  | nil => rfl
  | cons X l ih =>
    simp only [tryFormats, h X (by simp)]
    exact ih (fun Y hY => h Y (by simp [hY]))

/-- C8 (counterexample): for an input no layout nor the integer fallback
accepts, the `Time64` converter's error is
`"cannot parse time64 value: <input>"`, which is not the claimed
`"cannot parse time value: <input>"`. -/
theorem c8_parse_fallback_counterexample :
    t64Col6.parseTimeStr "zzz".data = .error ("cannot parse time64 value: zzz".data) ∧
      ("cannot parse time64 value: zzz".data : Str) ≠ "cannot parse time value: zzz".data :=
  ⟨rfl, by decide⟩

/-- C8 (amended): for either variant, the converter tries the fixed layout
list in its documented order — whenever the list splits as
`l1 ++ L :: l2` with every layout of `l1` failing on the input and `L`
parsing it, the result is built from `L`'s clock — otherwise the input is
tried as a bare signed integer tick count, and if that also fails the
conversion fails with an error carrying the original input string, worded
"cannot parse time value" for `Time` and "cannot parse time64 value" for
`Time64`. -/
theorem c8_parse_fallback_amended :
    (∀ (col : TimeCol) (s : Str) (l1 l2 : List GoLayout) (L : GoLayout) (c : Clock),
      timeFormats = l1 ++ L :: l2 → (∀ X ∈ l1, goParse X s = none) →
      goParse L s = some c →
      col.parseTimeStr s = .ok (goDateIn col.offset c.hour c.minute c.second c.nsec)) ∧
    (∀ (col : TimeCol) (s : Str) (n : Int),
      (∀ X ∈ timeFormats, goParse X s = none) → goParseInt s 64 = some n →
      col.parseTimeStr s = .ok (timeFromSecondsIn col.offset n)) ∧
    (∀ (col : TimeCol) (s : Str),
      (∀ X ∈ timeFormats, goParse X s = none) → goParseInt s 64 = none →
      col.parseTimeStr s = .error (errCannotParseTime s)) ∧
    (∀ (col : Time64Col) (s : Str) (l1 l2 : List GoLayout) (L : GoLayout) (c : Clock),
      time64Formats = l1 ++ L :: l2 → (∀ X ∈ l1, goParse X s = none) →
      goParse L s = some c →
      col.parseTimeStr s = .ok (goDateIn col.offset c.hour c.minute c.second c.nsec)) ∧
    (∀ (col : Time64Col) (s : Str) (n : Int),
      (∀ X ∈ time64Formats, goParse X s = none) → goParseInt s 64 = some n →
      col.parseTimeStr s = .ok (time64FromMillisIn col.offset n)) ∧
    (∀ (col : Time64Col) (s : Str),
      (∀ X ∈ time64Formats, goParse X s = none) → goParseInt s 64 = none →
      col.parseTimeStr s = .error (errCannotParseTime64 s)) := by
  refine ⟨?_, ?_, ?_, ?_, ?_, ?_⟩
  · intro col s l1 l2 L c hsplit h1 h2
    simp only [TimeCol.parseTimeStr, hsplit, tryFormats_first l1 L l2 s c h1 h2]
  · intro col s n hnone hint
    simp only [TimeCol.parseTimeStr, tryFormats_none timeFormats s hnone, hint]
  · intro col s hnone hint
    simp only [TimeCol.parseTimeStr, tryFormats_none timeFormats s hnone, hint]
  · intro col s l1 l2 L c hsplit h1 h2
    simp only [Time64Col.parseTimeStr, hsplit, tryFormats_first l1 L l2 s c h1 h2]
  · intro col s n hnone hint
    simp only [Time64Col.parseTimeStr, tryFormats_none time64Formats s hnone, hint]
  · intro col s hnone hint
    simp only [Time64Col.parseTimeStr, tryFormats_none time64Formats s hnone, hint]

/-- C8 (witness for the amended theorem): `"12:30"` fails the first layout
and is parsed by the second (`15:04`); `"3661"` falls through every layout
to the integer fallback; `"zzz"` fails everything and yields the error
carrying the input. -/
theorem c8_parse_fallback_witness :
    tCol0.parseTimeStr "12:30".data = .ok (goDateIn tCol0.offset 12 30 0 0) ∧
      tCol0.parseTimeStr "3661".data = .ok (timeFromSecondsIn tCol0.offset 3661) ∧
      tCol0.parseTimeStr "zzz".data = .error (errCannotParseTime "zzz".data) :=
  ⟨c8_parse_fallback_amended.1 tCol0 "12:30".data [.hms]
      [.hmsFrac, .hmsFrac6, .hmsFrac9, .h12msPM, .h12mPM, .hmsTZ, .hmsFracTZ]
      .hm ⟨12, 30, 0, 0⟩ rfl (by decide) (by decide),
    c8_parse_fallback_amended.2.1 tCol0 "3661".data 3661 (by decide) (by decide),
    c8_parse_fallback_amended.2.2.1 tCol0 "zzz".data (by decide) (by decide)⟩

/-! C9.  `ScanRow` of either variant fails with a conversion error naming
the destination type and the operation for every destination outside the
variant's supported set that does not implement `sql.Scanner`, and a
failing destination is never a silent success: every error's fields are
`ScanRow`, the destination's `%T` name, and the variant name, and an
unsupported destination always produces such an error. -/

/-- C9: errors of `ScanRow` arise exactly at unsupported destinations and
always carry operation `ScanRow`, the destination type name, and the
variant name; a non-scanner destination outside the supported set never
silently succeeds. -/
theorem c9_unsupported_dest_scan_error :
    (∀ (col : TimeCol) (row : Nat) (dest : ScanDest) (e : ColumnConverterError),
      col.scanRow dest row = .error e →
        ∃ n, dest = .plainDest n ∧ e = ⟨"ScanRow".data, n, "Time".data⟩) ∧
    (∀ (col : TimeCol) (row : Nat) (n : Str),
      col.scanRow (.plainDest n) row = .error ⟨"ScanRow".data, n, "Time".data⟩) ∧
    (∀ (col : Time64Col) (row : Nat) (dest : ScanDest) (e : ColumnConverterError),
      col.scanRow dest row = .error e →
        e.op = "ScanRow".data ∧ e.toType = destTypeName dest ∧
          e.srcType = "Time64".data) ∧
    (∀ (col : Time64Col) (row : Nat) (n : Str),
      col.scanRow (.plainDest n) row = .error ⟨"ScanRow".data, n, "Time64".data⟩) := by
  refine ⟨?_, fun col row n => rfl, ?_, fun col row n => rfl⟩
  · intro col row dest e h
    cases dest <;> simp only [TimeCol.scanRow] at h
    case plainDest n =>
      exact ⟨n, rfl, by injection h with h2; exact h2.symm⟩
    all_goals exact Except.noConfusion h
  · intro col row dest e h
    cases dest <;> simp only [Time64Col.scanRow] at h
    case stringDest =>
      injection h with h2; subst h2; exact ⟨rfl, rfl, rfl⟩
    case stringPtrDest =>
      injection h with h2; subst h2; exact ⟨rfl, rfl, rfl⟩
    case plainDest n =>
      injection h with h2; subst h2; exact ⟨rfl, rfl, rfl⟩
    all_goals exact Except.noConfusion h

/-- C9 (witness): scanning into an unsupported `*float64` destination
errors with the full error naming the destination on both variants. -/
theorem c9_unsupported_dest_scan_error_witness :
    tCol0.scanRow (.plainDest "*float64".data) 0 =
        .error ⟨"ScanRow".data, "*float64".data, "Time".data⟩ ∧
      (∃ n, (ScanDest.plainDest "*float64".data) = .plainDest n ∧
        (⟨"ScanRow".data, "*float64".data, "Time".data⟩ : ColumnConverterError) =
          ⟨"ScanRow".data, n, "Time".data⟩) ∧
      t64Col6.scanRow (.plainDest "*float64".data) 0 =
        .error ⟨"ScanRow".data, "*float64".data, "Time64".data⟩ :=
  ⟨c9_unsupported_dest_scan_error.2.1 tCol0 0 "*float64".data,
    c9_unsupported_dest_scan_error.1 tCol0 0 (.plainDest "*float64".data)
      ⟨"ScanRow".data, "*float64".data, "Time".data⟩ rfl,
    c9_unsupported_dest_scan_error.2.2.2 t64Col6 0 "*float64".data⟩

end CHTime
